import Mathlib

/-!
Verification development for the recurrence-set engine and calendar-offset
(relativedelta-style) arithmetic of the "Dealing with Datetimes" workbooks.
The repository's notebooks exercise an external engine (recurrence rules,
recurrence sets, calendar offsets, aware-datetime equality); the engine is
modelled here from the repository's specification and the notebooks'
documented behaviour and executed outputs, and the claimed properties are
proved about that model.
-/

/-! ## Calendar basics -/

/-- Gregorian leap-year test. -/
def isLeap (y : Nat) : Bool :=
  y % 4 == 0 && (y % 100 != 0 || y % 400 == 0)

/-- Number of days in a Gregorian month (month 1..12). -/
def daysInMonth (y m : Nat) : Nat :=
  if m == 2 then (if isLeap y then 29 else 28)
  else if m == 4 || m == 6 || m == 9 || m == 11 then 30
  else 31

/-- Day number of a civil date, counted from 0000-03-01 of the proleptic
Gregorian calendar (Hinnant's civil-from-days scheme, specialised to
nonnegative years). -/
def daysFromCivil (y m d : Nat) : Nat :=
  let y1 := if m ≤ 2 then y - 1 else y
  let era := y1 / 400
  let yoe := y1 % 400
  let mp := (m + 9) % 12
  let doy := (153 * mp + 2) / 5 + d - 1
  let doe := yoe * 365 + yoe / 4 - yoe / 100 + doy
  era * 146097 + doe

/-- Inverse of `daysFromCivil`: civil date (year, month, day) of a day
number. -/
def civilFromDays (z : Nat) : Nat × Nat × Nat :=
  let era := z / 146097
  let doe := z % 146097
  let yoe := (doe - doe / 1460 + doe / 36524 - doe / 146096) / 365
  let y1 := yoe + era * 400
  let doy := doe - (365 * yoe + yoe / 4 - yoe / 100)
  let mp := (5 * doy + 2) / 153
  let d := doy - (153 * mp + 2) / 5 + 1
  let m := if mp < 10 then mp + 3 else mp - 9
  (if m ≤ 2 then y1 + 1 else y1, m, d)

/-- Weekday of a day number, 0 = Monday .. 6 = Sunday. -/
def wdOfDay (z : Nat) : Nat := (z + 2) % 7

/-- A naive date/time down to microseconds. -/
structure DT where
  y : Nat
  m : Nat
  d : Nat
  h : Nat
  mi : Nat
  s : Nat
  us : Nat
deriving DecidableEq, Repr

/-- Microseconds in a day. -/
def microsPerDay : Nat := 86400000000

/-- Timestamp of a `DT` in microseconds since day 0 (0000-03-01). -/
def tsOf (dt : DT) : Nat :=
  ((((daysFromCivil dt.y dt.m dt.d) * 24 + dt.h) * 60 + dt.mi) * 60 + dt.s)
    * 1000000 + dt.us

/-- Decode a microsecond timestamp back into a `DT`. -/
def dtOfTs (t : Nat) : DT :=
  let z := t / microsPerDay
  let r := t % microsPerDay
  let c := civilFromDays z
  ⟨c.1, c.2.1, c.2.2, r / 3600000000, r % 3600000000 / 60000000,
    r % 60000000 / 1000000, r % 1000000⟩

/-- Weekday of a `DT`, 0 = Monday .. 6 = Sunday. -/
def wdOf (dt : DT) : Nat := wdOfDay (daysFromCivil dt.y dt.m dt.d)

/-- The date fields of a `DT` are a real calendar date: month in 1..12 and
day in 1..days-of-that-month. -/
def ValidDT (dt : DT) : Prop :=
  1 ≤ dt.m ∧ dt.m ≤ 12 ∧ 1 ≤ dt.d ∧ dt.d ≤ daysInMonth dt.y dt.m

instance (dt : DT) : Decidable (ValidDT dt) := by
  unfold ValidDT; infer_instance

/-! ## CalendarOffset (the notebooks' `relativedelta`)

Modelled from the spec: the `relativedelta` implementation invoked by the
notebooks is not part of the repository sources; `CalendarOffset` and
`applyOffset` below follow the spec's §4.3 algorithm (absolute fields set
first in field order with day clamping, then relative fields largest unit
first, then the weekday jump), pinned to the notebooks' executed outputs. -/

/-- A weekday selector: target day-of-week (0 = Monday .. 6 = Sunday) and a
signed 1-based ordinal (never zero). -/
structure WDSel where
  wd : Nat
  n : Int
deriving DecidableEq, Repr

/-- A calendar offset: optional absolute ("set to") fields, signed relative
("add") fields, and an optional weekday selector. -/
structure CalendarOffset where
  year : Option Nat := none
  month : Option Nat := none
  day : Option Nat := none
  hour : Option Nat := none
  minute : Option Nat := none
  second : Option Nat := none
  microsecond : Option Nat := none
  years : Int := 0
  months : Int := 0
  days : Int := 0
  hours : Int := 0
  minutes : Int := 0
  seconds : Int := 0
  microseconds : Int := 0
  weekday : Option WDSel := none
deriving DecidableEq, Repr

/-- Clamp a requested day-of-month to the last valid day of the month
(the fallback-to-last-valid-date rule). -/
def clampDay (y m d : Nat) : Nat := min d (daysInMonth y m)

/-- Step 1 of `applyOffset`: set every present absolute field, clamping the
day to the valid range of the resulting year/month. -/
def applyAbs (c : CalendarOffset) (dt : DT) : DT :=
  let y := c.year.getD dt.y
  let m := c.month.getD dt.m
  ⟨y, m, clampDay y m (c.day.getD dt.d), c.hour.getD dt.h,
    c.minute.getD dt.mi, c.second.getD dt.s, c.microsecond.getD dt.us⟩

/-- Add a signed number of years, clamping the day on overflow
(e.g. Feb 29 + 1 year). A zero field is absent and leaves the input
untouched. -/
def addYears (dt : DT) (k : Int) : DT :=
  if k == 0 then dt
  else
    let y := (Int.ofNat dt.y + k).toNat
    ⟨y, dt.m, clampDay y dt.m dt.d, dt.h, dt.mi, dt.s, dt.us⟩

/-- Add a signed number of months, carrying into the year and clamping the
day on overflow. A zero field is absent and leaves the input untouched. -/
def addMonths (dt : DT) (k : Int) : DT :=
  if k == 0 then dt
  else
    let T := Int.ofNat (dt.y * 12 + (dt.m - 1)) + k
    let y := (T.ediv 12).toNat
    let m := (T.emod 12).toNat + 1
    ⟨y, m, clampDay y m dt.d, dt.h, dt.mi, dt.s, dt.us⟩

/-- Move one day forward in the civil calendar. -/
def succDay (dt : DT) : DT :=
  if dt.d < daysInMonth dt.y dt.m then ⟨dt.y, dt.m, dt.d + 1, dt.h, dt.mi, dt.s, dt.us⟩
  else if dt.m < 12 then ⟨dt.y, dt.m + 1, 1, dt.h, dt.mi, dt.s, dt.us⟩
  else ⟨dt.y + 1, 1, 1, dt.h, dt.mi, dt.s, dt.us⟩

/-- Move one day backward in the civil calendar. -/
def predDay (dt : DT) : DT :=
  if 1 < dt.d then ⟨dt.y, dt.m, dt.d - 1, dt.h, dt.mi, dt.s, dt.us⟩
  else if 1 < dt.m then ⟨dt.y, dt.m - 1, daysInMonth dt.y (dt.m - 1), dt.h, dt.mi, dt.s, dt.us⟩
  else ⟨dt.y - 1, 12, 31, dt.h, dt.mi, dt.s, dt.us⟩

/-- Add a signed number of days (exact calendar stepping; days never
overflow a month, so no clamping arises here). -/
def addDays (dt : DT) (k : Int) : DT :=
  if 0 ≤ k then succDay^[k.toNat] dt else predDay^[k.natAbs] dt

/-- Time of day in microseconds. -/
def todOf (dt : DT) : Nat :=
  ((dt.h * 60 + dt.mi) * 60 + dt.s) * 1000000 + dt.us

/-- Replace the time-of-day fields from a microsecond count within a day. -/
def withTod (dt : DT) (r : Nat) : DT :=
  ⟨dt.y, dt.m, dt.d, r / 3600000000, r % 3600000000 / 60000000,
    r % 60000000 / 1000000, r % 1000000⟩

/-- Add a signed number of microseconds, carrying whole days into calendar
day steps. A zero amount is an absent field and leaves the input
untouched. -/
def addMicros (dt : DT) (k : Int) : DT :=
  if k == 0 then dt
  else
    let tot := Int.ofNat (todOf dt) + k
    let dShift := tot.ediv (Int.ofNat microsPerDay)
    let r := (tot.emod (Int.ofNat microsPerDay)).toNat
    addDays (withTod dt r) dShift

/-- Combined sub-month relative amount of an offset, in microseconds
(days, hours, minutes, seconds, microseconds are all exact units, so they
are applied as one exact shift). -/
def deltaMicros (c : CalendarOffset) : Int :=
  (((c.days * 24 + c.hours) * 60 + c.minutes) * 60 + c.seconds) * 1000000
    + c.microseconds

/-- Step 3 of `applyOffset`: jump to the ordinal-th occurrence of the target
weekday, scanning forward for a positive ordinal and backward for a
negative one; the current day counts as a possible first match in either
direction. -/
def applyWD (w : WDSel) (dt : DT) : DT :=
  let cur := wdOf dt
  if 0 < w.n then
    addDays dt (Int.ofNat ((w.n.toNat - 1) * 7 + (7 - cur + w.wd) % 7))
  else
    addDays dt (-(Int.ofNat ((w.n.natAbs - 1) * 7 + (cur + 7 - w.wd) % 7)))

/-- Apply a calendar offset to a date/time: absolute fields first (in field
order, day clamped), then relative fields largest unit first (years, then
months, each clamping the day; then the exact sub-month units), then the
weekday jump last. -/
def applyOffset (c : CalendarOffset) (dt : DT) : DT :=
  let r1 := applyAbs c dt
  let r2 := addYears r1 c.years
  let r3 := addMonths r2 c.months
  let r4 := addMicros r3 (deltaMicros c)
  match c.weekday with
  | none => r4
  | some w => applyWD w r4

/-- Negation of an offset: relative fields are sign-negated; absolute
fields and the weekday selector are kept as they are (the notebooks:
weekday offsets "have the same effect whether you add or subtract
them"). -/
def negOff (c : CalendarOffset) : CalendarOffset :=
  { c with
    years := -c.years
    months := -c.months
    days := -c.days
    hours := -c.hours
    minutes := -c.minutes
    seconds := -c.seconds
    microseconds := -c.microseconds }

/-- Subtracting an offset from a date/time is applying its negation. -/
def subOffset (c : CalendarOffset) (dt : DT) : DT := applyOffset (negOff c) dt

/-- Scalar multiplication of an offset: relative fields are multiplied by
the scalar; absolute fields and the weekday selector are unchanged (the
notebooks: "weekdays are not affected by multiplication"). -/
def scaleOff (c : CalendarOffset) (k : Int) : CalendarOffset :=
  { c with
    years := c.years * k
    months := c.months * k
    days := c.days * k
    hours := c.hours * k
    minutes := c.minutes * k
    seconds := c.seconds * k
    microseconds := c.microseconds * k }

/-- Left-biased choice of two optional fields. -/
def orO {α : Type} (x y : Option α) : Option α :=
  match x with
  | some v => some v
  | none => y

/-- Composition of two offsets into one: relative fields add, absolute
fields and the weekday selector are taken from the left operand when
present, else from the right. -/
def combineOff (a b : CalendarOffset) : CalendarOffset :=
  { year := orO a.year b.year
    month := orO a.month b.month
    day := orO a.day b.day
    hour := orO a.hour b.hour
    minute := orO a.minute b.minute
    second := orO a.second b.second
    microsecond := orO a.microsecond b.microsecond
    years := a.years + b.years
    months := a.months + b.months
    days := a.days + b.days
    hours := a.hours + b.hours
    minutes := a.minutes + b.minutes
    seconds := a.seconds + b.seconds
    microseconds := a.microseconds + b.microseconds
    weekday := orO a.weekday b.weekday }

/-- Modelled from the spec: the spec's claim that subtraction reverses the
weekday-scan direction corresponds to flipping the sign of the weekday
ordinal; this definition follows those words so the claim can be compared
with the engine's actual subtraction. -/
def flipWDOff (c : CalendarOffset) : CalendarOffset :=
  { c with weekday := c.weekday.map (fun w => ⟨w.wd, -w.n⟩) }

/-- Absolute fields of an offset lie in their natural domains (the spec's
`InvalidOffsetError` precondition, restricted to the fields that affect
date validity). -/
def validOffsetB (c : CalendarOffset) : Bool :=
  (match c.month with | none => true | some v => 1 ≤ v && v ≤ 12) &&
  (match c.day with | none => true | some v => 1 ≤ v)

/-! ## RecurrenceRule (the notebooks' `rrule`)

Modelled from the spec: the `rrule` implementation invoked by the
notebooks is not part of the repository sources; `RecurrenceRule` and its
bounded occurrence evaluation follow the spec's §4.1 algorithm
(period-by-period candidate expansion, weekday-ordinal resolution within
the period, set-position selection, dtstart/end-bound/count filtering),
pinned to the notebooks' documented outputs. The lazy infinite stream is
evaluated to a bounded prefix: `ruleOccsN r n` lists the occurrences of
the first `n` generation periods. -/

/-- Generation frequency of a recurrence rule. -/
inductive Freq where
  | yearly | monthly | weekly | daily | hourly | minutely | secondly
deriving DecidableEq, Repr

/-- A weekday constraint: target day-of-week (0 = Monday .. 6 = Sunday),
with an optional signed 1-based ordinal ("the k-th such weekday of the
period"; negative counts from the end). -/
structure ByWD where
  wd : Nat
  ord : Option Int
deriving DecidableEq, Repr

/-- A recurrence rule: frequency, inclusive start anchor, optional
exclusive end bound or maximum count, and field constraints. -/
structure RecurrenceRule where
  freq : Freq
  dtstart : DT
  untilB : Option DT := none
  countB : Option Nat := none
  bymonth : List Nat := []
  bymonthday : List Nat := []
  byweekday : List ByWD := []
  byhour : List Nat := []
  byminute : List Nat := []
  bysecond : List Nat := []
  bysetpos : Option Int := none
deriving DecidableEq, Repr

/-- Fill in the implicit constraints of a rule from its start anchor: a
yearly rule without day constraints recurs on the start's month and day, a
monthly rule without day constraints recurs on the start's day-of-month,
and a weekly rule without a weekday constraint recurs on the start's
weekday. -/
def normalizeRule (r : RecurrenceRule) : RecurrenceRule :=
  match r.freq with
  | .yearly =>
    if r.bymonthday.isEmpty && r.byweekday.isEmpty then
      { r with
        bymonth := if r.bymonth.isEmpty then [r.dtstart.m] else r.bymonth
        bymonthday := [r.dtstart.d] }
    else r
  | .monthly =>
    if r.bymonthday.isEmpty && r.byweekday.isEmpty then
      { r with bymonthday := [r.dtstart.d] }
    else r
  | .weekly =>
    if r.byweekday.isEmpty then
      { r with byweekday := [⟨wdOf r.dtstart, none⟩] }
    else r
  | _ => r

/-- The days (as day numbers) of the i-th generation period of a rule with
a day-or-coarser frequency. -/
def periodDays (r : RecurrenceRule) (i : Nat) : List Nat :=
  match r.freq with
  | .yearly =>
    let y := r.dtstart.y + i
    (List.range 12).flatMap fun mj =>
      (List.range (daysInMonth y (mj + 1))).map fun dj =>
        daysFromCivil y (mj + 1) (dj + 1)
  | .monthly =>
    let tot := r.dtstart.y * 12 + (r.dtstart.m - 1) + i
    let y := tot / 12
    let m := tot % 12 + 1
    (List.range (daysInMonth y m)).map fun dj => daysFromCivil y m (dj + 1)
  | .weekly =>
    let z0 := daysFromCivil r.dtstart.y r.dtstart.m r.dtstart.d + 7 * i
    (List.range 7).map (z0 + ·)
  | _ =>
    [daysFromCivil r.dtstart.y r.dtstart.m r.dtstart.d + i]

/-- The k-th day (1-based, negative from the end) among the days of a
period that fall on weekday `w`; `none` when the ordinal is out of
range. -/
def ordSelect (pdays : List Nat) (w : Nat) (k : Int) : Option Nat :=
  let ms := pdays.filter (fun z => wdOfDay z == w)
  if 0 < k then ms.get? (k.toNat - 1)
  else if k.natAbs ≤ ms.length then ms.get? (ms.length - k.natAbs)
  else none

/-- Whether period day `z` is selected by the weekday constraint `bw`,
resolving an ordinal over the whole period (the spec: "enumerate all
matching weekdays in the period, then index by the given 1-based
ordinal"). -/
def matchesBW (pdays : List Nat) (z : Nat) (bw : ByWD) : Bool :=
  match bw.ord with
  | none => wdOfDay z == bw.wd
  | some k => ordSelect pdays bw.wd k == some z

/-- Day-level filters that need no period context: month, day-of-month and
plain (ordinal-free) weekday membership. -/
def plainDayOk (r : RecurrenceRule) (z : Nat) : Bool :=
  let c := civilFromDays z
  (r.bymonth.isEmpty || r.bymonth.contains c.2.1) &&
  (r.bymonthday.isEmpty || r.bymonthday.contains c.2.2) &&
  (r.byweekday.isEmpty || r.byweekday.any (fun bw => wdOfDay z == bw.wd))

/-- The candidate days of a period: period days surviving the month,
day-of-month and weekday (ordinal-aware) constraints. -/
def candDays (r : RecurrenceRule) (pdays : List Nat) : List Nat :=
  pdays.filter fun z =>
    let c := civilFromDays z
    (r.bymonth.isEmpty || r.bymonth.contains c.2.1) &&
    (r.bymonthday.isEmpty || r.bymonthday.contains c.2.2) &&
    (r.byweekday.isEmpty || r.byweekday.any (matchesBW pdays z))

/-- Expand a candidate day into candidate timestamps on the rule's
hour/minute/second grid (a missing grid defaults to the start anchor's
value). -/
def timeGrid (r : RecurrenceRule) (z : Nat) : List Nat :=
  let hs := if r.byhour.isEmpty then [r.dtstart.h] else r.byhour
  let ms := if r.byminute.isEmpty then [r.dtstart.mi] else r.byminute
  let ss := if r.bysecond.isEmpty then [r.dtstart.s] else r.bysecond
  hs.flatMap fun h => ms.flatMap fun mi => ss.map fun s =>
    (((z * 24 + h) * 60 + mi) * 60 + s) * 1000000 + r.dtstart.us

/-- The candidate timestamps of the i-th generation period, in ascending
order for ascending constraint lists. Sub-day frequencies advance the
start timestamp by the period length and filter it through the day and
time constraints (finer grids expanding below the period granularity). -/
def periodTimestamps (r : RecurrenceRule) (i : Nat) : List Nat :=
  match r.freq with
  | .hourly =>
    let b := tsOf r.dtstart + i * 3600000000
    let bdt := dtOfTs b
    let z := b / microsPerDay
    if plainDayOk r z && (r.byhour.isEmpty || r.byhour.contains bdt.h) then
      let ms := if r.byminute.isEmpty then [r.dtstart.mi] else r.byminute
      let ss := if r.bysecond.isEmpty then [r.dtstart.s] else r.bysecond
      ms.flatMap fun mi => ss.map fun s =>
        (((z * 24 + bdt.h) * 60 + mi) * 60 + s) * 1000000 + r.dtstart.us
    else []
  | .minutely =>
    let b := tsOf r.dtstart + i * 60000000
    let bdt := dtOfTs b
    let z := b / microsPerDay
    if plainDayOk r z && (r.byhour.isEmpty || r.byhour.contains bdt.h) &&
        (r.byminute.isEmpty || r.byminute.contains bdt.mi) then
      let ss := if r.bysecond.isEmpty then [r.dtstart.s] else r.bysecond
      ss.map fun s =>
        (((z * 24 + bdt.h) * 60 + bdt.mi) * 60 + s) * 1000000 + r.dtstart.us
    else []
  | .secondly =>
    let b := tsOf r.dtstart + i * 1000000
    let bdt := dtOfTs b
    let z := b / microsPerDay
    if plainDayOk r z && (r.byhour.isEmpty || r.byhour.contains bdt.h) &&
        (r.byminute.isEmpty || r.byminute.contains bdt.mi) &&
        (r.bysecond.isEmpty || r.bysecond.contains bdt.s) then [b]
    else []
  | _ =>
    (candDays r (periodDays r i)).flatMap (timeGrid r)

/-- Apply the optional set-position selector to a period's sorted candidate
list: a positive position indexes from the start, a negative one from the
end; an out-of-range position yields no candidate for the period. -/
def applySetpos (p : Option Int) (l : List Nat) : List Nat :=
  match p with
  | none => l
  | some k =>
    if 0 < k then (l.drop (k.toNat - 1)).take 1
    else if k.natAbs ≤ l.length then (l.drop (l.length - k.natAbs)).take 1
    else []

/-- Bounded evaluation of a rule's lazy occurrence stream: the timestamps
of the first `n` generation periods, keeping only candidates at or after
the start anchor and strictly before the end bound, truncated to the
maximum count when one is set. -/
def ruleOccsN (r : RecurrenceRule) (n : Nat) : List Nat :=
  let rn := normalizeRule r
  let all := (List.range n).flatMap fun i =>
    applySetpos rn.bysetpos (periodTimestamps rn i)
  let bounded := all.filter fun t =>
    tsOf rn.dtstart ≤ t &&
    (match rn.untilB with | none => true | some u => t < tsOf u)
  match rn.countB with
  | none => bounded
  | some k => bounded.take k

/-- First occurrence strictly after (or, when `allowEq`, at) the reference
timestamp, within the first `n` periods; an explicit `none` when there is
no such occurrence. -/
def ruleAfterN (r : RecurrenceRule) (n : Nat) (t : Nat) (allowEq : Bool) :
    Option Nat :=
  ((ruleOccsN r n).filter fun x => decide (t < x) || (allowEq && x == t)).head?

/-- Last occurrence strictly before (or, when `allowEq`, at) the reference
timestamp, within the first `n` periods; an explicit `none` when there is
no such occurrence. -/
def ruleBeforeN (r : RecurrenceRule) (n : Nat) (t : Nat) (allowEq : Bool) :
    Option Nat :=
  ((ruleOccsN r n).filter fun x => decide (x < t) || (allowEq && x == t)).getLast?

/-- Rule-construction failures. -/
inductive RuleError where
  | invalidRule
deriving DecidableEq, Repr

/-- Domain validation of rule parameters: every constraint value inside its
field's domain, weekday ordinals nonzero, set position nonzero, and at
most one of end bound and maximum count. -/
def validRuleB (r : RecurrenceRule) : Bool :=
  r.bymonth.all (fun v => 1 ≤ v && v ≤ 12) &&
  r.bymonthday.all (fun v => 1 ≤ v && v ≤ 31) &&
  r.byweekday.all (fun bw => bw.wd ≤ 6 &&
    (match bw.ord with | none => true | some k => k != 0)) &&
  r.byhour.all (fun v => v ≤ 23) &&
  r.byminute.all (fun v => v ≤ 59) &&
  r.bysecond.all (fun v => v ≤ 59) &&
  (match r.bysetpos with | none => true | some k => k != 0) &&
  !(r.untilB.isSome && r.countB.isSome)

/-- Fail-fast construction of a rule: validation happens at the call that
builds the rule (an `Except` returned immediately), never deferred into
the occurrence stream. -/
def mkRule (r : RecurrenceRule) : Except RuleError RecurrenceRule :=
  if validRuleB r then .ok r else .error .invalidRule

/-! ## RecurrenceSet (the notebooks' `rruleset`)

Modelled from the spec: the `rruleset` implementation invoked by the
notebooks is not part of the repository sources; `RecurrenceSet` and its
bounded evaluation follow the spec's §4.2 algorithm (union of included
rules and explicit dates, deduplicated by exact timestamp equality and
sorted ascending, minus the excluded rules and explicit dates, with
unmatched exclusions silently ignored). -/

/-- Insert a timestamp into an ascending duplicate-free list, keeping it
ascending and duplicate-free. -/
def sortedInsert (t : Nat) : List Nat → List Nat
  | [] => [t]
  | x :: xs =>
    if t < x then t :: x :: xs
    else if t = x then x :: xs
    else x :: sortedInsert t xs

/-- Merge every element of a list into an ascending duplicate-free
accumulator. -/
def sortedUnion (l acc : List Nat) : List Nat := l.foldl (fun a t => sortedInsert t a) acc

/-- Merge several occurrence lists into an ascending duplicate-free
accumulator. -/
def unionAll (ls : List (List Nat)) (acc : List Nat) : List Nat :=
  ls.foldl (fun a l => sortedUnion l a) acc

/-- A recurrence set: included and excluded rules, and included and
excluded explicit dates. -/
structure RecurrenceSet where
  rrules : List RecurrenceRule := []
  exrules : List RecurrenceRule := []
  rdates : List Nat := []
  exdates : List Nat := []
deriving DecidableEq, Repr

/-- Add an included rule to the set. -/
def addRule (s : RecurrenceSet) (r : RecurrenceRule) : RecurrenceSet :=
  { s with rrules := s.rrules ++ [r] }

/-- Add an excluded rule to the set. -/
def addExrule (s : RecurrenceSet) (r : RecurrenceRule) : RecurrenceSet :=
  { s with exrules := s.exrules ++ [r] }

/-- Add an included explicit date to the set. -/
def addRdate (s : RecurrenceSet) (t : Nat) : RecurrenceSet :=
  { s with rdates := s.rdates ++ [t] }

/-- Add an excluded explicit date to the set. -/
def addExdate (s : RecurrenceSet) (t : Nat) : RecurrenceSet :=
  { s with exdates := s.exdates ++ [t] }

/-- The merged inclusion stream over the first `n` periods: the union of
all included rules' occurrences and the included explicit dates, ascending
and deduplicated. -/
def includedN (s : RecurrenceSet) (n : Nat) : List Nat :=
  unionAll (s.rrules.map (ruleOccsN · n)) (sortedUnion s.rdates [])

/-- The merged exclusion stream over the first `n` periods. -/
def excludedN (s : RecurrenceSet) (n : Nat) : List Nat :=
  unionAll (s.exrules.map (ruleOccsN · n)) (sortedUnion s.exdates [])

/-- Bounded evaluation of the set's combined output: every candidate of
the inclusion stream whose exact timestamp does not occur in the exclusion
stream; exclusion entries matching no candidate are silently ignored. -/
def rsetOccsN (s : RecurrenceSet) (n : Nat) : List Nat :=
  (includedN s n).filter fun t => !(decide (t ∈ excludedN s n))

/-! ## Aware-datetime equality (workbook05)

Modelled from the spec: the aware `datetime` comparison semantics
demonstrated in workbook05 live in the external datetime library; the
notebook documents them exactly: two aware datetimes whose `tzinfo` is the
*same object* compare by wall time, while datetimes with *distinct*
`tzinfo` objects (even value-equal ones) compare by absolute time. -/

/-- An aware datetime: wall-time timestamp (microseconds), UTC offset
(microseconds, signed), and the identity of its timezone-info object. -/
structure AwareDT where
  wall : Nat
  off : Int
  tzid : Nat
deriving DecidableEq, Repr

/-- The absolute (UTC) time an aware datetime denotes. -/
def absTime (a : AwareDT) : Int := (a.wall : Int) - a.off

/-- Aware-datetime equality: wall-time comparison when the two datetimes
share the identical timezone-info object, absolute-time comparison
otherwise. -/
def dtEq (a b : AwareDT) : Bool :=
  if a.tzid == b.tzid then a.wall == b.wall else absTime a == absTime b

/-- `x` of the workbook05 mystery: 2007-03-25 01:09 London, an imaginary
wall time in the spring-forward gap, carrying the cached zone object
(id 0) and the fold-0 offset +00:00. -/
def wbX : AwareDT := ⟨tsOf ⟨2007, 3, 25, 1, 9, 0, 0⟩, 0, 0⟩

/-- `y` of the workbook05 mystery: the round trip of `x` through its
timestamp with the same cached zone object — wall time 02:09 BST
(+01:00). -/
def wbY : AwareDT := ⟨tsOf ⟨2007, 3, 25, 2, 9, 0, 0⟩, 3600000000, 0⟩

/-- `z` of the workbook05 mystery: the same round trip with a fresh,
value-equal zone object (id 1). -/
def wbZ : AwareDT := ⟨tsOf ⟨2007, 3, 25, 2, 9, 0, 0⟩, 3600000000, 1⟩

/-! ## Ordering facts about the merged streams -/

theorem mem_sortedInsert {a t : Nat} : ∀ {l : List Nat},
    a ∈ sortedInsert t l ↔ a = t ∨ a ∈ l := by
  intro l
  induction l with
  | nil => simp [sortedInsert]
  | cons x xs ih =>
    by_cases h1 : t < x
    · simp [sortedInsert, h1]
    · by_cases h2 : t = x
      · subst h2
        simp [sortedInsert, h1]
      · simp only [sortedInsert, if_neg h1, if_neg h2, List.mem_cons, ih]
        tauto

theorem sorted_sortedInsert {t : Nat} : ∀ {l : List Nat},
    l.Sorted (· < ·) → (sortedInsert t l).Sorted (· < ·) := by
  intro l
  induction l with
  | nil => intro _; simp [sortedInsert]
  | cons x xs ih =>
    intro hs
    rw [List.sorted_cons] at hs
    by_cases h1 : t < x
    · simp only [sortedInsert, if_pos h1]
      rw [List.sorted_cons]
      refine ⟨?_, ?_⟩
      · intro b hb
        rcases List.mem_cons.mp hb with h | h
        · exact h ▸ h1
        · exact lt_trans h1 (hs.1 b h)
      · rw [List.sorted_cons]; exact hs
    · by_cases h2 : t = x
      · simp only [sortedInsert, if_neg h1, if_pos h2]
        rw [List.sorted_cons]; exact hs
      · simp only [sortedInsert, if_neg h1, if_neg h2]
        rw [List.sorted_cons]
        refine ⟨?_, ih hs.2⟩
        intro b hb
        rcases mem_sortedInsert.mp hb with h | h
        · subst h; omega
        · exact hs.1 b h

theorem sorted_sortedUnion {l acc : List Nat} (h : acc.Sorted (· < ·)) :
    (sortedUnion l acc).Sorted (· < ·) := by
  induction l generalizing acc with
  | nil => exact h
  | cons x xs ih => exact ih (sorted_sortedInsert h)

theorem mem_sortedUnion {a : Nat} : ∀ {l acc : List Nat},
    a ∈ sortedUnion l acc ↔ a ∈ l ∨ a ∈ acc := by
  intro l
  induction l with
  | nil => simp [sortedUnion]
  | cons x xs ih =>
    intro acc
    have : sortedUnion (x :: xs) acc = sortedUnion xs (sortedInsert x acc) := rfl
    rw [this, ih, mem_sortedInsert]
    simp [List.mem_cons]
    tauto

theorem sorted_unionAll {ls : List (List Nat)} {acc : List Nat}
    (h : acc.Sorted (· < ·)) : (unionAll ls acc).Sorted (· < ·) := by
  induction ls generalizing acc with
  | nil => exact h
  | cons l ls ih => exact ih (sorted_sortedUnion h)

theorem mem_unionAll {a : Nat} : ∀ {ls : List (List Nat)} {acc : List Nat},
    a ∈ unionAll ls acc ↔ (∃ l ∈ ls, a ∈ l) ∨ a ∈ acc := by
  intro ls
  induction ls with
  | nil => simp [unionAll]
  | cons l ls ih =>
    intro acc
    have hstep : unionAll (l :: ls) acc = unionAll ls (sortedUnion l acc) := rfl
    rw [hstep, ih]
    constructor
    · rintro (⟨m, hm, ha⟩ | h)
      · exact Or.inl ⟨m, List.mem_cons_of_mem _ hm, ha⟩
      · rcases mem_sortedUnion.mp h with h | h
        · exact Or.inl ⟨l, List.mem_cons_self _ _, h⟩
        · exact Or.inr h
    · rintro (⟨m, hm, ha⟩ | h)
      · rcases List.mem_cons.mp hm with rfl | hm
        · exact Or.inr (mem_sortedUnion.mpr (Or.inl ha))
        · exact Or.inl ⟨m, hm, ha⟩
      · exact Or.inr (mem_sortedUnion.mpr (Or.inr h))

theorem sorted_includedN (s : RecurrenceSet) (n : Nat) :
    (includedN s n).Sorted (· < ·) :=
  sorted_unionAll (sorted_sortedUnion (List.sorted_nil))

theorem sorted_rsetOccsN (s : RecurrenceSet) (n : Nat) :
    (rsetOccsN s n).Sorted (· < ·) :=
  (sorted_includedN s n).sublist (List.filter_sublist _)

theorem nodup_rsetOccsN (s : RecurrenceSet) (n : Nat) :
    (rsetOccsN s n).Nodup :=
  (sorted_rsetOccsN s n).imp (fun h => Nat.ne_of_lt h)

/-! ## Validity preservation of calendar-offset application -/

theorem one_le_daysInMonth (y m : Nat) : 1 ≤ daysInMonth y m := by
  unfold daysInMonth
  split
  · split <;> omega
  · split <;> omega

theorem daysInMonth_twelve (y : Nat) : daysInMonth y 12 = 31 := rfl

theorem validDT_succDay {dt : DT} (h : ValidDT dt) : ValidDT (succDay dt) := by
  obtain ⟨h1, h2, h3, h4⟩ := h
  unfold succDay
  split
  · simp only [ValidDT]
    omega
  · split
    · have h5 := one_le_daysInMonth dt.y (dt.m + 1)
      simp only [ValidDT]
      omega
    · have h5 := one_le_daysInMonth (dt.y + 1) 1
      simp only [ValidDT]
      omega

theorem validDT_predDay {dt : DT} (h : ValidDT dt) : ValidDT (predDay dt) := by
  obtain ⟨h1, h2, h3, h4⟩ := h
  unfold predDay
  split
  · simp only [ValidDT]
    omega
  · split
    · have h5 := one_le_daysInMonth dt.y (dt.m - 1)
      simp only [ValidDT]
      omega
    · have h5 := daysInMonth_twelve (dt.y - 1)
      simp only [ValidDT]
      omega

theorem validDT_iterate {f : DT → DT} (hf : ∀ x, ValidDT x → ValidDT (f x)) :
    ∀ (n : Nat) {dt : DT}, ValidDT dt → ValidDT (f^[n] dt) := by
  intro n
  induction n with
  | zero => intro dt h; simpa using h
  | succ k ih =>
    intro dt h
    rw [Function.iterate_succ_apply]
    exact ih (hf dt h)

theorem validDT_addDays {dt : DT} (k : Int) (h : ValidDT dt) :
    ValidDT (addDays dt k) := by
  unfold addDays
  split
  · exact validDT_iterate (fun x hx => validDT_succDay hx) _ h
  · exact validDT_iterate (fun x hx => validDT_predDay hx) _ h

theorem validDT_withTod {dt : DT} (r : Nat) (h : ValidDT dt) :
    ValidDT (withTod dt r) := h

theorem validDT_addMicros {dt : DT} (k : Int) (h : ValidDT dt) :
    ValidDT (addMicros dt k) := by
  unfold addMicros
  split
  · exact h
  · exact validDT_addDays _ (validDT_withTod _ h)

theorem validDT_addYears {dt : DT} (k : Int) (h : ValidDT dt) :
    ValidDT (addYears dt k) := by
  obtain ⟨h1, h2, h3, h4⟩ := h
  unfold addYears
  split
  · exact ⟨h1, h2, h3, h4⟩
  · have h5 := one_le_daysInMonth (Int.ofNat dt.y + k).toNat dt.m
    simp only [ValidDT, clampDay]
    omega

theorem validDT_addMonths {dt : DT} (k : Int) (h : ValidDT dt) :
    ValidDT (addMonths dt k) := by
  obtain ⟨h1, h2, h3, h4⟩ := h
  unfold addMonths
  split
  · exact ⟨h1, h2, h3, h4⟩
  · have h5 : (0:Int) ≤ (Int.ofNat (dt.y * 12 + (dt.m - 1)) + k).emod 12 :=
      Int.emod_nonneg _ (by norm_num)
    have h6 : (Int.ofNat (dt.y * 12 + (dt.m - 1)) + k).emod 12 < 12 :=
      Int.emod_lt_of_pos _ (by norm_num)
    have h7 := one_le_daysInMonth
      ((Int.ofNat (dt.y * 12 + (dt.m - 1)) + k).ediv 12).toNat
      (((Int.ofNat (dt.y * 12 + (dt.m - 1)) + k).emod 12).toNat + 1)
    simp only [ValidDT, clampDay]
    omega

theorem validDT_applyAbs {c : CalendarOffset} {dt : DT}
    (hc : validOffsetB c = true) (h : ValidDT dt) : ValidDT (applyAbs c dt) := by
  obtain ⟨h1, h2, h3, h4⟩ := h
  rw [validOffsetB, Bool.and_eq_true] at hc
  obtain ⟨hcm, hcd⟩ := hc
  have hm : 1 ≤ c.month.getD dt.m ∧ c.month.getD dt.m ≤ 12 := by
    cases hx : c.month with
    | none => exact ⟨h1, h2⟩
    | some v =>
      rw [hx] at hcm
      simp only [Bool.and_eq_true, decide_eq_true_eq] at hcm
      simpa using hcm
  have hd : 1 ≤ c.day.getD dt.d := by
    cases hx : c.day with
    | none => exact h3
    | some v =>
      rw [hx] at hcd
      simpa using hcd
  exact ⟨hm.1, hm.2, Nat.le_min.mpr ⟨hd, one_le_daysInMonth _ _⟩, min_le_right _ _⟩

theorem validDT_applyWD {w : WDSel} {dt : DT} (h : ValidDT dt) :
    ValidDT (applyWD w dt) := by
  unfold applyWD
  split
  · exact validDT_addDays _ h
  · exact validDT_addDays _ h

theorem validDT_applyOffset {c : CalendarOffset} {dt : DT}
    (hc : validOffsetB c = true) (h : ValidDT dt) :
    ValidDT (applyOffset c dt) := by
  have h4 := validDT_addMicros (deltaMicros c)
    (validDT_addMonths c.months (validDT_addYears c.years (validDT_applyAbs hc h)))
  unfold applyOffset
  cases hw : c.weekday with
  | none => simpa using h4
  | some w => simpa using validDT_applyWD h4

/-! ## Identity lemmas for offset application -/

theorem wdOf_lt (dt : DT) : wdOf dt < 7 := Nat.mod_lt _ (by norm_num)

theorem applyAbs_weekday_only (w : Option WDSel) {dt : DT} (hv : ValidDT dt) :
    applyAbs { weekday := w } dt = dt := by
  cases dt with
  | mk y m d h mi s us =>
    obtain ⟨h1, h2, h3, h4⟩ := hv
    unfold applyAbs clampDay
    simp only [Option.getD_none]
    simp only [ValidDT] at h4
    rw [Nat.min_eq_left h4]

theorem addYears_zero (dt : DT) : addYears dt 0 = dt := by
  simp [addYears]

theorem addMonths_zero (dt : DT) : addMonths dt 0 = dt := by
  simp [addMonths]

theorem addMicros_zero (dt : DT) : addMicros dt 0 = dt := by
  simp [addMicros]

theorem addDays_zero (dt : DT) : addDays dt 0 = dt := by
  simp [addDays]

theorem applyWD_fix_pos {dt : DT} {w : Nat} (hw : wdOf dt = w) :
    applyWD ⟨w, 1⟩ dt = dt := by
  have hlt : wdOf dt < 7 := wdOf_lt dt
  have hz : (Int.toNat 1 - 1) * 7 + (7 - wdOf dt + w) % 7 = 0 := by omega
  unfold applyWD
  rw [if_pos (by norm_num : (0:Int) < 1)]
  rw [hz]
  exact addDays_zero dt

theorem applyWD_fix_neg {dt : DT} {w : Nat} (hw : wdOf dt = w) :
    applyWD ⟨w, -1⟩ dt = dt := by
  have hlt : wdOf dt < 7 := wdOf_lt dt
  have hz : (Int.natAbs (-1) - 1) * 7 + (wdOf dt + 7 - w) % 7 = 0 := by
    simp only [Int.natAbs_neg, Int.natAbs_one]
    omega
  unfold applyWD
  rw [if_neg (by norm_num : ¬ (0:Int) < -1)]
  rw [hz]
  exact addDays_zero dt

theorem deltaMicros_weekday_only (w : Option WDSel) :
    deltaMicros { weekday := w } = 0 := by
  norm_num [deltaMicros]

theorem applyOffset_weekday_only (w : WDSel) {dt : DT} (hv : ValidDT dt) :
    applyOffset { weekday := some w } dt = applyWD w dt := by
  unfold applyOffset
  dsimp only
  rw [applyAbs_weekday_only (some w) hv, addYears_zero, addMonths_zero,
    deltaMicros_weekday_only, addMicros_zero]

/-! ## The claims about `CalendarOffset` -/

/-- The notebooks' `relativedelta(weekday=FR)`: Friday with the implicit
ordinal +1. -/
def frPlus : CalendarOffset := { weekday := some ⟨4, 1⟩ }

/-- 1975-12-30, the notebooks' weekday-example anchor (a Tuesday). -/
def dt1975 : DT := ⟨1975, 12, 30, 0, 0, 0, 0⟩

/-- C2: applying `{months:+1}` twice sequentially to 2020-03-31 gives
2020-05-30 (each step clamps to the new month's length), while composing
`{months:+1}` with itself into the single offset `{months:+2}` and
applying it once gives 2020-05-31; the two results differ. -/
theorem seq_months_differs_from_composed :
    applyOffset { months := 1 }
        (applyOffset { months := 1 } ⟨2020, 3, 31, 0, 0, 0, 0⟩)
      = ⟨2020, 5, 30, 0, 0, 0, 0⟩ ∧
    applyOffset { months := 1 } ⟨2020, 3, 31, 0, 0, 0, 0⟩
      = ⟨2020, 4, 30, 0, 0, 0, 0⟩ ∧
    combineOff { months := 1 } { months := 1 } = ({ months := 2 } : CalendarOffset) ∧
    applyOffset (combineOff { months := 1 } { months := 1 }) ⟨2020, 3, 31, 0, 0, 0, 0⟩
      = ⟨2020, 5, 31, 0, 0, 0, 0⟩ ∧
    (⟨2020, 5, 30, 0, 0, 0, 0⟩ : DT) ≠ ⟨2020, 5, 31, 0, 0, 0, 0⟩ := by
  exact ⟨by decide, by decide, by decide, by decide, by decide⟩

/-- C3 counterexample: subtracting the Friday(+1) offset from 1975-12-30
does not scan in the reversed direction: it lands on 1976-01-02 exactly as
addition does, not on 1975-12-26, which is where the direction-reversed
(ordinal-negated) offset lands. -/
theorem sub_weekday_not_reversed :
    subOffset frPlus dt1975 = ⟨1976, 1, 2, 0, 0, 0, 0⟩ ∧
    applyOffset frPlus dt1975 = ⟨1976, 1, 2, 0, 0, 0, 0⟩ ∧
    applyOffset (flipWDOff frPlus) dt1975 = ⟨1975, 12, 26, 0, 0, 0, 0⟩ ∧
    subOffset frPlus dt1975 ≠ applyOffset (flipWDOff frPlus) dt1975 := by
  exact ⟨by decide, by decide, by decide, by decide⟩

/-- C3 (amended): subtraction (apply with negated relative fields) negates
exactly the relative fields; the absolute fields and the weekday selector
(including its scan direction) are applied unchanged — so subtracting the
Friday(+1) offset from 1975-12-30 gives the same 1976-01-02 as adding
it. -/
theorem sub_negates_only_relative (c : CalendarOffset) :
    (negOff c).years = -c.years ∧ (negOff c).months = -c.months ∧
    (negOff c).days = -c.days ∧ (negOff c).hours = -c.hours ∧
    (negOff c).minutes = -c.minutes ∧ (negOff c).seconds = -c.seconds ∧
    (negOff c).microseconds = -c.microseconds ∧
    (negOff c).year = c.year ∧ (negOff c).month = c.month ∧
    (negOff c).day = c.day ∧ (negOff c).hour = c.hour ∧
    (negOff c).minute = c.minute ∧ (negOff c).second = c.second ∧
    (negOff c).microsecond = c.microsecond ∧
    (negOff c).weekday = c.weekday ∧
    subOffset frPlus dt1975 = applyOffset frPlus dt1975 := by
  refine ⟨rfl, rfl, rfl, rfl, rfl, rfl, rfl, rfl, rfl, rfl, rfl, rfl, rfl,
    rfl, rfl, by decide⟩

/-- An offset with both a relative field and an ordinal-2 weekday selector,
used to exhibit that scaling leaves the weekday ordinal alone. -/
def c4sample : CalendarOffset := { days := 2, weekday := some ⟨6, 2⟩ }

/-- C4 counterexample: scaling `{days: 2, weekday: SU(2)}` by 3 multiplies
the relative day field (2 ↦ 6) but leaves the weekday ordinal at 2 — it is
not multiplied to 6 as the claim states. -/
theorem scale_keeps_weekday_ordinal :
    (scaleOff c4sample 3).days = 6 ∧
    (scaleOff c4sample 3).weekday = some ⟨6, 2⟩ ∧
    (scaleOff c4sample 3).weekday ≠ some ⟨6, 6⟩ := by
  exact ⟨by decide, by decide, by decide⟩

/-- C4 (amended): scaling an offset by an integer multiplies every relative
field by that integer and leaves every absolute field and the entire
weekday selector (both its day-of-week and its ordinal) unchanged. -/
theorem scale_scales_only_relative (c : CalendarOffset) (k : Int) :
    (scaleOff c k).years = c.years * k ∧ (scaleOff c k).months = c.months * k ∧
    (scaleOff c k).days = c.days * k ∧ (scaleOff c k).hours = c.hours * k ∧
    (scaleOff c k).minutes = c.minutes * k ∧
    (scaleOff c k).seconds = c.seconds * k ∧
    (scaleOff c k).microseconds = c.microseconds * k ∧
    (scaleOff c k).year = c.year ∧ (scaleOff c k).month = c.month ∧
    (scaleOff c k).day = c.day ∧ (scaleOff c k).hour = c.hour ∧
    (scaleOff c k).minute = c.minute ∧ (scaleOff c k).second = c.second ∧
    (scaleOff c k).microsecond = c.microsecond ∧
    (scaleOff c k).weekday = c.weekday :=
  ⟨rfl, rfl, rfl, rfl, rfl, rfl, rfl, rfl, rfl, rfl, rfl, rfl, rfl, rfl, rfl⟩

/-- C5: applying an offset whose absolute fields are in-domain to a valid
date always yields a valid date — a requested day-of-month that does not
exist in the resulting month is clamped to the month's last valid day and
application never fails; in particular `{day: 30}` on 2015-02-01 gives
2015-02-28 and on 2016-02-01 gives 2016-02-29. -/
theorem day_overflow_clamps (c : CalendarOffset) (dt : DT)
    (hc : validOffsetB c = true) (hv : ValidDT dt) :
    ValidDT (applyOffset c dt) ∧
    applyOffset { day := some 30 } ⟨2015, 2, 1, 0, 0, 0, 0⟩
      = ⟨2015, 2, 28, 0, 0, 0, 0⟩ ∧
    applyOffset { day := some 30 } ⟨2016, 2, 1, 0, 0, 0, 0⟩
      = ⟨2016, 2, 29, 0, 0, 0, 0⟩ :=
  ⟨validDT_applyOffset hc hv, by decide, by decide⟩

theorem day_overflow_clamps_witness :
    validOffsetB { day := some 30 } = true ∧
    ValidDT ⟨2015, 2, 1, 0, 0, 0, 0⟩ ∧
    ValidDT (applyOffset { day := some 30 } ⟨2015, 2, 1, 0, 0, 0, 0⟩) :=
  ⟨by decide, by decide,
    (day_overflow_clamps { day := some 30 } ⟨2015, 2, 1, 0, 0, 0, 0⟩
      (by decide) (by decide)).1⟩

/-- The notebooks' Mother's-day offset: month set to May, day set to 1,
then the second Sunday on or after. -/
def mothersDayOff : CalendarOffset :=
  { month := some 5, day := some 1, weekday := some ⟨6, 2⟩ }

/-- The notebooks' next-month offset: add one month, day set to 1. -/
def nextMonthOff : CalendarOffset := { months := 1, day := some 1 }

/-- C6: `applyOffset` processes absolute fields first, then relative
fields largest unit first, then the weekday jump last (this order is fixed
in the definition of `applyOffset`); consequently the Mother's-day offset
sends Jan 1 of 2018/2019/2020 to 2018-05-13, 2019-05-12 and 2020-05-10,
and the next-month offset sends 2019-01-31 to 2019-02-01. -/
theorem application_order_examples :
    applyOffset mothersDayOff ⟨2018, 1, 1, 0, 0, 0, 0⟩ = ⟨2018, 5, 13, 0, 0, 0, 0⟩ ∧
    applyOffset mothersDayOff ⟨2019, 1, 1, 0, 0, 0, 0⟩ = ⟨2019, 5, 12, 0, 0, 0, 0⟩ ∧
    applyOffset mothersDayOff ⟨2020, 1, 1, 0, 0, 0, 0⟩ = ⟨2020, 5, 10, 0, 0, 0, 0⟩ ∧
    applyOffset nextMonthOff ⟨2019, 1, 31, 0, 0, 0, 0⟩ = ⟨2019, 2, 1, 0, 0, 0, 0⟩ := by
  exact ⟨by decide, by decide, by decide, by decide⟩

/-- C7: a date already on the target weekday is its own first match in
both scan directions — the weekday offset with ordinal +1 and the one with
ordinal -1 both fix it. -/
theorem weekday_fixpoint_both_directions (dt : DT) (w : Nat)
    (hv : ValidDT dt) (hw : wdOf dt = w) :
    applyOffset { weekday := some ⟨w, 1⟩ } dt = dt ∧
    applyOffset { weekday := some ⟨w, -1⟩ } dt = dt := by
  constructor
  · rw [applyOffset_weekday_only ⟨w, 1⟩ hv]
    exact applyWD_fix_pos hw
  · rw [applyOffset_weekday_only ⟨w, -1⟩ hv]
    exact applyWD_fix_neg hw

theorem weekday_fixpoint_witness :
    ValidDT dt1975 ∧ wdOf dt1975 = 1 ∧
    applyOffset { weekday := some ⟨1, 1⟩ } dt1975 = dt1975 ∧
    applyOffset { weekday := some ⟨1, -1⟩ } dt1975 = dt1975 :=
  ⟨by decide, by decide,
    (weekday_fixpoint_both_directions dt1975 1 (by decide) (by decide)).1,
    (weekday_fixpoint_both_directions dt1975 1 (by decide) (by decide)).2⟩

/-! ## Behaviour of exclusions on the merged stream -/

theorem includedN_addExdate (s : RecurrenceSet) (t : Nat) (n : Nat) :
    includedN (addExdate s t) n = includedN s n := rfl

theorem includedN_addExrule (s : RecurrenceSet) (r : RecurrenceRule) (n : Nat) :
    includedN (addExrule s r) n = includedN s n := rfl

theorem mem_excludedN_addExdate {s : RecurrenceSet} {t x : Nat} {n : Nat} :
    x ∈ excludedN (addExdate s t) n ↔ x ∈ excludedN s n ∨ x = t := by
  unfold excludedN addExdate
  rw [mem_unionAll, mem_unionAll, mem_sortedUnion, mem_sortedUnion]
  simp only [List.mem_append, List.mem_singleton, List.not_mem_nil, or_false]
  exact or_assoc.symm

theorem mem_excludedN_addExrule {s : RecurrenceSet} {r : RecurrenceRule}
    {x : Nat} {n : Nat} :
    x ∈ excludedN (addExrule s r) n ↔ x ∈ excludedN s n ∨ x ∈ ruleOccsN r n := by
  unfold excludedN addExrule
  rw [mem_unionAll, mem_unionAll]
  simp only [List.map_append, List.map_cons, List.map_nil, List.mem_append,
    List.mem_singleton]
  constructor
  · rintro (⟨l, hl | hl, ha⟩ | h)
    · exact Or.inl (Or.inl ⟨l, hl, ha⟩)
    · subst hl
      exact Or.inr ha
    · exact Or.inl (Or.inr h)
  · rintro ((⟨l, hl, ha⟩ | h) | h)
    · exact Or.inl ⟨l, Or.inl hl, ha⟩
    · exact Or.inr h
    · exact Or.inl ⟨ruleOccsN r n, Or.inr rfl, h⟩

theorem rsetOccs_addExdate (s : RecurrenceSet) (t : Nat) (n : Nat) :
    rsetOccsN (addExdate s t) n = (rsetOccsN s n).filter (fun x => x != t) := by
  unfold rsetOccsN
  rw [includedN_addExdate, List.filter_filter]
  apply List.filter_congr
  intro x hx
  by_cases h1 : x ∈ excludedN s n <;> by_cases h2 : x = t <;>
    simp [mem_excludedN_addExdate, h1, h2]

theorem rsetOccs_addExrule (s : RecurrenceSet) (r : RecurrenceRule) (n : Nat) :
    rsetOccsN (addExrule s r) n
      = (rsetOccsN s n).filter (fun x => !(decide (x ∈ ruleOccsN r n))) := by
  unfold rsetOccsN
  rw [includedN_addExrule, List.filter_filter]
  apply List.filter_congr
  intro x hx
  by_cases h1 : x ∈ excludedN s n <;> by_cases h2 : x ∈ ruleOccsN r n <;>
    simp [mem_excludedN_addExrule, h1, h2]

/-! ## The claims about `RecurrenceSet` -/

/-- The notebooks' end-of-month rule: monthly, day-of-month in
{28,29,30,31}, set position -1, bounded March-July 2019. -/
def ruleA : RecurrenceRule :=
  { freq := .monthly
    dtstart := ⟨2019, 3, 1, 0, 0, 0, 0⟩
    untilB := some ⟨2019, 7, 1, 0, 0, 0, 0⟩
    bymonthday := [28, 29, 30, 31]
    bysetpos := some (-1) }

/-- The notebooks' last-Friday rule: monthly, last Friday of the month,
bounded March-July 2019. -/
def ruleB : RecurrenceRule :=
  { freq := .monthly
    dtstart := ⟨2019, 3, 1, 0, 0, 0, 0⟩
    untilB := some ⟨2019, 7, 1, 0, 0, 0, 0⟩
    byweekday := [⟨4, some (-1)⟩] }

/-- The notebooks' recurrence set combining the end-of-month and
last-Friday rules. -/
def setAB : RecurrenceSet := { rrules := [ruleA, ruleB] }

/-- C1: the merged output of a recurrence set never repeats a timestamp —
every member occurs exactly once however many included rules produce it —
and in the notebooks' set of the end-of-month and last-Friday rules the
May 2019 window contains exactly the single occurrence 2019-05-31 (the
last day of May 2019 is a Friday, so both rules produce it). -/
theorem union_dedup_single_may (s : RecurrenceSet) (n : Nat) (t : Nat)
    (h : t ∈ rsetOccsN s n) :
    (rsetOccsN s n).count t = 1 ∧
    (rsetOccsN setAB 5).filter
        (fun x => tsOf ⟨2019, 5, 1, 0, 0, 0, 0⟩ ≤ x &&
          x < tsOf ⟨2019, 6, 1, 0, 0, 0, 0⟩)
      = [tsOf ⟨2019, 5, 31, 0, 0, 0, 0⟩] :=
  ⟨List.count_eq_one_of_mem (nodup_rsetOccsN s n) h, by decide⟩

theorem union_dedup_single_may_witness :
    tsOf ⟨2019, 5, 31, 0, 0, 0, 0⟩ ∈ rsetOccsN setAB 5 ∧
    (rsetOccsN setAB 5).count (tsOf ⟨2019, 5, 31, 0, 0, 0, 0⟩) = 1 :=
  ⟨by decide,
    (union_dedup_single_may setAB 5 (tsOf ⟨2019, 5, 31, 0, 0, 0, 0⟩)
      (by decide)).1⟩

/-- A set holding two explicit meeting dates and nothing else. -/
def rdateSet : RecurrenceSet :=
  { rdates := [tsOf ⟨2019, 6, 13, 10, 0, 0, 0⟩, tsOf ⟨2019, 6, 20, 10, 0, 0, 0⟩] }

/-- A monthly rule anchored at 2019-06-01, whose occurrences miss every
date of `rdateSet`. -/
def juneRule : RecurrenceRule :=
  { freq := .monthly, dtstart := ⟨2019, 6, 1, 0, 0, 0, 0⟩ }

/-- C8: adding an excluded explicit date filters exactly that timestamp
out of the set's output (so a timestamp already in the output is removed
and is never present afterwards), an exdate matching no candidate leaves
the output unchanged, and likewise an excluded rule filters exactly its
own occurrences out, so an exrule whose occurrences match no candidate
changes nothing; all four operations are total — no error is raised. -/
theorem exdate_removes_unmatched_ignored (s : RecurrenceSet) (t : Nat)
    (r : RecurrenceRule) (n : Nat) :
    (rsetOccsN (addExdate s t) n = (rsetOccsN s n).filter (fun x => x != t)) ∧
    t ∉ rsetOccsN (addExdate s t) n ∧
    (t ∉ rsetOccsN s n → rsetOccsN (addExdate s t) n = rsetOccsN s n) ∧
    (rsetOccsN (addExrule s r) n
      = (rsetOccsN s n).filter (fun x => !(decide (x ∈ ruleOccsN r n)))) ∧
    ((∀ x ∈ ruleOccsN r n, x ∉ rsetOccsN s n) →
      rsetOccsN (addExrule s r) n = rsetOccsN s n) := by
  refine ⟨rsetOccs_addExdate s t n, ?_, ?_, rsetOccs_addExrule s r n, ?_⟩
  · rw [rsetOccs_addExdate]
    intro hmem
    have := (List.mem_filter.mp hmem).2
    simp at this
  · intro h
    rw [rsetOccs_addExdate]
    apply List.filter_eq_self.mpr
    intro a ha
    simp only [bne_iff_ne, ne_eq, decide_eq_true_eq]
    intro he
    exact h (he ▸ ha)
  · intro h
    rw [rsetOccs_addExrule]
    apply List.filter_eq_self.mpr
    intro a ha
    simp only [Bool.not_eq_true', decide_eq_false_iff_not]
    intro he
    exact h a he ha

theorem exdate_removes_unmatched_ignored_witness :
    tsOf ⟨2019, 6, 12, 14, 0, 0, 0⟩ ∉ rsetOccsN rdateSet 1 ∧
    rsetOccsN (addExdate rdateSet (tsOf ⟨2019, 6, 12, 14, 0, 0, 0⟩)) 1
      = rsetOccsN rdateSet 1 ∧
    rsetOccsN (addExrule rdateSet juneRule) 1 = rsetOccsN rdateSet 1 :=
  ⟨by decide,
    (exdate_removes_unmatched_ignored rdateSet (tsOf ⟨2019, 6, 12, 14, 0, 0, 0⟩)
      juneRule 1).2.2.1 (by decide),
    (exdate_removes_unmatched_ignored rdateSet (tsOf ⟨2019, 6, 12, 14, 0, 0, 0⟩)
      juneRule 1).2.2.2.2 (by decide)⟩

/-! ## The claims about construction validation and aware equality -/

/-- A rule with an out-of-domain month constraint (month = 13). -/
def badMonthRule : RecurrenceRule :=
  { freq := .yearly, dtstart := ⟨2019, 4, 15, 0, 0, 0, 0⟩, bymonth := [13] }

/-- A rule with an out-of-domain hour constraint (hour = 25). -/
def badHourRule : RecurrenceRule :=
  { freq := .daily, dtstart := ⟨2019, 4, 15, 0, 0, 0, 0⟩, byhour := [25] }

/-- A rule specifying both a maximum count and an end bound. -/
def bothBoundsRule : RecurrenceRule :=
  { freq := .monthly
    dtstart := ⟨2019, 3, 1, 0, 0, 0, 0⟩
    untilB := some ⟨2019, 7, 1, 0, 0, 0, 0⟩
    countB := some 3 }

/-- C9: constructing a rule with a field value outside its domain
(month = 13, hour = 25) or with both a maximum count and an end bound
fails with `invalidRule` at the `mkRule` call itself — `mkRule` returns
the `Except` before any occurrence is generated, so the failure is never
deferred into iteration — while a well-formed rule constructs, and both
`after` and `before` finding no occurrence return the explicit `none` of
an `Option`, not an error (and an existing occurrence as `some`). -/
theorem invalid_rule_fails_fast :
    mkRule badMonthRule = .error .invalidRule ∧
    mkRule badHourRule = .error .invalidRule ∧
    mkRule bothBoundsRule = .error .invalidRule ∧
    mkRule ruleA = .ok ruleA ∧
    ruleAfterN ruleA 5 (tsOf ⟨2019, 8, 1, 0, 0, 0, 0⟩) false = none ∧
    ruleAfterN ruleA 5 (tsOf ⟨2019, 4, 1, 0, 0, 0, 0⟩) false
      = some (tsOf ⟨2019, 4, 30, 0, 0, 0, 0⟩) ∧
    ruleBeforeN ruleA 5 (tsOf ⟨2019, 2, 1, 0, 0, 0, 0⟩) false = none ∧
    ruleBeforeN ruleA 5 (tsOf ⟨2019, 5, 1, 0, 0, 0, 0⟩) false
      = some (tsOf ⟨2019, 4, 30, 0, 0, 0, 0⟩) := by
  exact ⟨by rfl, by rfl, by rfl, by rfl, by decide, by decide, by decide,
    by decide⟩

/-- C10: aware-datetime equality is not transitive: the workbook05 triple
(x imaginary 01:09 London wall time on the cached zone object, z its
timestamp round trip on a fresh zone object, y the same round trip on the
cached object) satisfies x == z and z == y but x != y, because comparisons
on the identical zone object use wall time while comparisons across
distinct zone objects use absolute time. -/
theorem aware_eq_not_transitive :
    dtEq wbX wbZ = true ∧ dtEq wbZ wbY = true ∧ dtEq wbX wbY = false := by
  exact ⟨by decide, by decide, by decide⟩
